import Mathlib

/-!
Shallow embedding of the relevance-ranking pipeline of
`src/app/api/search/route.ts` (the `calculateRelevanceScore` function,
lines 110-172, and the dedupe / score / sort / cap pipeline inside the
`POST` handler, lines 654-665), together with theorems settling the
specification claims about it.

All strings handled by the ranker are ASCII, so JavaScript
`toLowerCase` is modelled by ASCII lowercasing and `String.prototype.includes`
by substring containment over the character list.
-/

namespace LegalSearch

/-- ASCII lowercasing of one character, as performed by JavaScript
`toLowerCase` on the ASCII strings this program handles. -/
def lowerChar (c : Char) : Char :=
  if c.toNat ≥ 65 ∧ c.toNat ≤ 90 then Char.ofNat (c.toNat + 32) else c

/-- Lowercase a string (models JavaScript `s.toLowerCase()` on ASCII data). -/
def strLower (s : String) : String := String.mk (s.data.map lowerChar)

/-- Does `pat` occur at the head of `text`? Helper for substring search. -/
def headMatch : List Char → List Char → Bool
  | [], _ => true
  | _ :: _, [] => false
  | p :: ps, t :: ts => p == t && headMatch ps ts

/-- Does `pat` occur anywhere in `text`? Helper for substring search. -/
def subMatch (pat : List Char) : List Char → Bool
  | [] => headMatch pat []
  | t :: ts => headMatch pat (t :: ts) || subMatch pat ts

/-- Models JavaScript `s.includes(pat)`: substring containment. -/
def strIncludes (s pat : String) : Bool := subMatch pat.data s.data

/-- Leading decimal digits of a character list. -/
def takeDigits : List Char → List Char
  | [] => []
  | c :: cs => if c.isDigit then c :: takeDigits cs else []

/-- Numeric value of a list of decimal digits. -/
def digitsToNat (ds : List Char) : Nat :=
  ds.foldl (fun n c => n * 10 + (c.toNat - 48)) 0

/-- Models JavaScript `parseInt(s)` on decimal input: skip leading
whitespace, read an optional sign and then a run of decimal digits;
`none` models the `NaN` result when no digits are found. -/
def parseIntJS (s : String) : Option Int :=
  let cs := s.data.dropWhile (fun c => c == ' ' || c == '\t' || c == '\n' || c == '\r')
  match cs with
  | '-' :: rest =>
    let ds := takeDigits rest
    if ds.isEmpty then none else some (-(digitsToNat ds : Int))
  | '+' :: rest =>
    let ds := takeDigits rest
    if ds.isEmpty then none else some ((digitsToNat ds : Int))
  | _ =>
    let ds := takeDigits cs
    if ds.isEmpty then none else some ((digitsToNat ds : Int))

/-- A candidate case record as assembled by the route before ranking
(see the normalized shape built at lines 617-626 and in the mock
sources). Fields are optional to model records with missing
(JavaScript `undefined`) fields; `id` is a string in the ranking
pipeline (CourtListener ids are converted with `toString()`). -/
structure CaseRecord where
  id : Option String := none
  name : Option String := none
  court : Option String := none
  date : Option String := none
  snippet : Option String := none
  url : Option String := none
  jurisdiction : Option String := none
  source : Option String := none
deriving Repr, DecidableEq

/-- Lowercased candidate name with missing-field default
(`case_.name?.toLowerCase() || ''`, line 113). -/
def caseNameLower (c : CaseRecord) : String := strLower (c.name.getD "")

/-- Lowercased candidate snippet with missing-field default
(`case_.snippet?.toLowerCase() || ''`, line 114). -/
def caseSnippetLower (c : CaseRecord) : String := strLower (c.snippet.getD "")

/-- Combined candidate text (`const caseText = caseName + " " + caseSnippet`,
line 115). -/
def caseTextLower (c : CaseRecord) : String :=
  caseNameLower c ++ " " ++ caseSnippetLower c

/-- Bonus added for an exact jurisdiction match (line 119). -/
def jurisdictionMatchBonus : Int := 15

/-- Recency bonus for a year at or after 2010 (line 125). -/
def recency2010Bonus : Int := 10

/-- Additional recency bonus for a year at or after 2020 (line 126). -/
def recency2020Bonus : Int := 5

/-- Source-credibility bonus for CourtListener (line 130). -/
def courtListenerBonus : Int := 10

/-- Source-credibility bonus for Google Scholar (line 131). -/
def googleScholarBonus : Int := 8

/-- Source-credibility bonus for Cornell LII (line 132). -/
def cornellBonus : Int := 6

/-- Source-credibility bonus for Justia (line 133). -/
def justiaBonus : Int := 5

/-- Court-level bonus for a supreme court (line 137). -/
def supremeCourtBonus : Int := 15

/-- Court-level bonus for a court of appeal (line 138). -/
def courtOfAppealBonus : Int := 10

/-- Court-level bonus for a district court (line 139). -/
def districtCourtBonus : Int := 5

/-- Bonus for a key term shared by the query and the case name (line 148). -/
def keyTermNameBonus : Int := 20

/-- Bonus for a key term shared by the query and the case snippet (line 151). -/
def keyTermSnippetBonus : Int := 10

/-- Bonus for the statutory citation `1950.5` shared by query and case text
(line 157). -/
def statute1950Bonus : Int := 50

/-- Bonus for `civil code` shared by query and case text (line 160). -/
def civilCodeBonus : Int := 30

/-- Bonus for the procedural term `21 day` shared by query and case text
(line 165). -/
def day21Bonus : Int := 25

/-- Bonus for `notice` shared by query and case text (line 168). -/
def noticeBonus : Int := 15

/-- Jurisdiction rule (lines 117-120): `if (jurisdiction &&
case_.jurisdiction === jurisdiction) score += 15`. The request-level
`jurisdiction` is falsy when absent or empty; the comparison with the
candidate field is JavaScript strict equality. -/
def jurisdictionBonus (c : CaseRecord) (jurisdiction : Option String) : Int :=
  match jurisdiction with
  | none => 0
  | some j => if j != "" && c.jurisdiction == some j then jurisdictionMatchBonus else 0

/-- Recency rule (lines 122-127): `if (case_.date)` guards on a present,
non-empty date; `parseInt(case_.date.split('-')[0])` parses the leading
dash-separated segment; `NaN` (modelled by `none`) makes both year
comparisons false. -/
def recencyBonus (c : CaseRecord) : Int :=
  match c.date with
  | none => 0
  | some d =>
    if d = "" then 0
    else
      match parseIntJS (String.mk (d.data.takeWhile (fun ch => ch != '-'))) with
      | none => 0
      | some y =>
        (if y ≥ 2010 then recency2010Bonus else 0)
          + (if y ≥ 2020 then recency2020Bonus else 0)

/-- Source-credibility rule (lines 129-133): four independent strict-equality
checks against the provenance tag. -/
def sourceBonus (c : CaseRecord) : Int :=
  (if c.source == some "CourtListener" then courtListenerBonus else 0)
    + (if c.source == some "Google Scholar" then googleScholarBonus else 0)
    + (if c.source == some "Cornell LII" then cornellBonus else 0)
    + (if c.source == some "Justia" then justiaBonus else 0)

/-- Lowercased court name with missing-field default
(`case_.court?.toLowerCase() || ''`, line 136). -/
def courtNameLower (c : CaseRecord) : String := strLower (c.court.getD "")

/-- Court-level rule (lines 135-139): substring checks on the lowercased
court name. -/
def courtBonus (c : CaseRecord) : Int :=
  (if strIncludes (courtNameLower c) "supreme court" then supremeCourtBonus else 0)
    + (if strIncludes (courtNameLower c) "court of appeal" then courtOfAppealBonus else 0)
    + (if strIncludes (courtNameLower c) "district court" then districtCourtBonus else 0)

/-- The fixed key-term allow-list (lines 142-144). -/
def keyTerms : List String :=
  ["deposit", "landlord", "tenant", "security", "notice", "return",
   "contract", "breach", "damages", "negligence", "employment",
   "discrimination", "civil code", "1950.5"]

/-- Key-term rule (lines 146-153): for each key term, +20 when the query and
the case name both contain it, +10 when the query and the snippet both
contain it. -/
def keyTermBonus (c : CaseRecord) (query : String) : Int :=
  keyTerms.foldl
    (fun score term =>
      score
        + (if strIncludes (strLower query) term && strIncludes (caseNameLower c) term then
            keyTermNameBonus else 0)
        + (if strIncludes (strLower query) term && strIncludes (caseSnippetLower c) term then
            keyTermSnippetBonus else 0))
    0

/-- Statute rule (lines 155-161): `1950.5` and `civil code` co-occurrence
between the query and the combined case text. -/
def statuteBonus (c : CaseRecord) (query : String) : Int :=
  (if strIncludes (strLower query) "1950.5" && strIncludes (caseTextLower c) "1950.5" then
      statute1950Bonus else 0)
    + (if strIncludes (strLower query) "civil code"
          && strIncludes (caseTextLower c) "civil code" then
        civilCodeBonus else 0)

/-- Procedural rule (lines 163-169): `21 day` and `notice` co-occurrence
between the query and the combined case text. -/
def proceduralBonus (c : CaseRecord) (query : String) : Int :=
  (if strIncludes (strLower query) "21 day" && strIncludes (caseTextLower c) "21 day" then
      day21Bonus else 0)
    + (if strIncludes (strLower query) "notice" && strIncludes (caseTextLower c) "notice" then
        noticeBonus else 0)

/-- `calculateRelevanceScore` (lines 110-172): the score starts at 0 and the
seven rule groups accumulate into it in order; addition is associative and
commutative, so the accumulated result is the sum of the per-rule
contributions. -/
def calculateRelevanceScore (c : CaseRecord) (query : String)
    (jurisdiction : Option String) : Int :=
  jurisdictionBonus c jurisdiction
    + recencyBonus c
    + sourceBonus c
    + courtBonus c
    + keyTermBonus c query
    + statuteBonus c query
    + proceduralBonus c query

/-- A ranked record: the input record spread into a fresh object together
with the computed `relevanceScore` field (`{...case_, relevanceScore: ...}`,
lines 660-663). -/
structure ScoredRecord extends CaseRecord where
  relevanceScore : Int
deriving Repr, DecidableEq

/-- The per-record scoring step of the pipeline (lines 660-663). -/
def addScore (query : String) (jurisdiction : Option String)
    (c : CaseRecord) : ScoredRecord :=
  { toCaseRecord := c, relevanceScore := calculateRelevanceScore c query jurisdiction }

/-- The duplicate test of the dedupe filter (line 656):
`c.name === case_.name || c.id === case_.id`. JavaScript strict equality on
possibly-`undefined` fields is equality of the optional values (`undefined ===
undefined` is `true`). -/
def keyMatch (c x : CaseRecord) : Bool := c.name == x.name || c.id == x.id

/-- Structural form of the dedupe filter (lines 655-657):
`cases.filter((case_, index, self) => self.findIndex(c => c.name === case_.name
|| c.id === case_.id) === index)`. An element is kept exactly when no element
strictly earlier in the original list (kept or not) matches its name or id;
`seen` carries the earlier elements. -/
def dedupeAux (seen : List CaseRecord) : List CaseRecord → List CaseRecord
  | [] => []
  | x :: xs =>
    if seen.any (fun c => keyMatch c x) then dedupeAux (x :: seen) xs
    else x :: dedupeAux (x :: seen) xs

/-- The dedupe step producing `uniqueCases` (lines 655-657). -/
def dedupeCases (cases : List CaseRecord) : List CaseRecord := dedupeAux [] cases

/-- The sort order used by `sort((a, b) => b.relevanceScore - a.relevanceScore)`
(line 664): descending by relevance score. -/
def scoreDesc (a b : ScoredRecord) : Prop := b.relevanceScore ≤ a.relevanceScore

instance : DecidableRel scoreDesc := fun a b =>
  inferInstanceAs (Decidable (b.relevanceScore ≤ a.relevanceScore))

instance : IsTotal ScoredRecord scoreDesc :=
  ⟨fun a b => le_total b.relevanceScore a.relevanceScore⟩

instance : IsTrans ScoredRecord scoreDesc :=
  ⟨fun _ _ _ h1 h2 => le_trans h2 h1⟩

/-- The cap on the ranked output (`slice(0, 10)`, line 665). -/
def rankedCap : Nat := 10

/-- The ranking pipeline building `rankedCases` (lines 654-665): dedupe,
score, stable sort descending by score, truncate to the cap. JavaScript
`Array.prototype.sort` is stable, and a stable sort for a total preorder is
unique, so it is modelled by stable insertion sort. -/
def rankedCases (cases : List CaseRecord) (query : String)
    (jurisdiction : Option String) : List ScoredRecord :=
  (List.insertionSort scoreDesc
    ((dedupeCases cases).map (addScore query jurisdiction))).take rankedCap

/-! ### Helper lemmas about the scoring rules -/

/-- A fold of the key-term shape leaves the accumulator unchanged when both
per-term contributions vanish on every listed term. -/
theorem foldl_add_eq_init {α : Type} (f g : α → Int) :
    ∀ (ts : List α), (∀ t ∈ ts, f t = 0) → (∀ t ∈ ts, g t = 0) →
      ∀ a : Int, ts.foldl (fun score t => score + f t + g t) a = a := by
  intro ts
  induction ts with
  | nil => intro _ _ a; rfl
  | cons t ts ih =>
    intro hf hg a
    have h1 : f t = 0 := hf t (List.mem_cons_self t ts)
    have h2 : g t = 0 := hg t (List.mem_cons_self t ts)
    simp only [List.foldl_cons, h1, h2, add_zero]
    exact ih (fun u hu => hf u (List.mem_cons_of_mem t hu))
      (fun u hu => hg u (List.mem_cons_of_mem t hu)) a

/-- A fold of the key-term shape never decreases the accumulator when both
per-term contributions are non-negative on every listed term. -/
theorem foldl_add_le_init {α : Type} (f g : α → Int) :
    ∀ (ts : List α), (∀ t ∈ ts, 0 ≤ f t) → (∀ t ∈ ts, 0 ≤ g t) →
      ∀ a : Int, a ≤ ts.foldl (fun score t => score + f t + g t) a := by
  intro ts
  induction ts with
  | nil => intro _ _ a; exact le_refl a
  | cons t ts ih =>
    intro hf hg a
    have h1 : 0 ≤ f t := hf t (List.mem_cons_self t ts)
    have h2 : 0 ≤ g t := hg t (List.mem_cons_self t ts)
    calc a ≤ a + f t + g t := by omega
      _ ≤ ts.foldl (fun score t => score + f t + g t) (a + f t + g t) :=
          ih (fun u hu => hf u (List.mem_cons_of_mem t hu))
            (fun u hu => hg u (List.mem_cons_of_mem t hu)) _

theorem jurisdictionBonus_nonneg (c : CaseRecord) (j : Option String) :
    0 ≤ jurisdictionBonus c j := by
  unfold jurisdictionBonus
  split
  · exact le_refl 0
  · split <;> decide

theorem recencyBonus_nonneg (c : CaseRecord) : 0 ≤ recencyBonus c := by
  unfold recencyBonus
  split
  · exact le_refl 0
  · split
    · exact le_refl 0
    · split
      · exact le_refl 0
      · split <;> split <;> decide

theorem sourceBonus_nonneg (c : CaseRecord) : 0 ≤ sourceBonus c := by
  unfold sourceBonus
  split <;> split <;> split <;> split <;> decide

theorem courtBonus_nonneg (c : CaseRecord) : 0 ≤ courtBonus c := by
  unfold courtBonus
  split <;> split <;> split <;> decide

theorem keyTermBonus_nonneg (c : CaseRecord) (q : String) : 0 ≤ keyTermBonus c q := by
  unfold keyTermBonus
  refine foldl_add_le_init _ _ keyTerms ?_ ?_ 0 <;>
    · intro t _
      split <;> decide

theorem statuteBonus_nonneg (c : CaseRecord) (q : String) : 0 ≤ statuteBonus c q := by
  unfold statuteBonus
  split <;> split <;> decide

theorem proceduralBonus_nonneg (c : CaseRecord) (q : String) : 0 ≤ proceduralBonus c q := by
  unfold proceduralBonus
  split <;> split <;> decide

/-- The key-term rule contributes nothing when neither the candidate's name
nor its snippet contains any allow-listed term. -/
theorem keyTermBonus_eq_zero (c : CaseRecord) (q : String)
    (hn : ∀ t ∈ keyTerms, strIncludes (caseNameLower c) t = false)
    (hs : ∀ t ∈ keyTerms, strIncludes (caseSnippetLower c) t = false) :
    keyTermBonus c q = 0 := by
  unfold keyTermBonus
  refine foldl_add_eq_init _ _ keyTerms ?_ ?_ 0
  · intro t ht; rw [hn t ht, Bool.and_false, if_neg (by simp)]
  · intro t ht; rw [hs t ht, Bool.and_false, if_neg (by simp)]

/-- The statute rule contributes nothing when the combined case text contains
neither distinguished statutory token. -/
theorem statuteBonus_eq_zero (c : CaseRecord) (q : String)
    (h1 : strIncludes (caseTextLower c) "1950.5" = false)
    (h2 : strIncludes (caseTextLower c) "civil code" = false) :
    statuteBonus c q = 0 := by
  unfold statuteBonus
  rw [h1, h2, Bool.and_false, Bool.and_false]
  simp

/-- The procedural rule contributes nothing when the combined case text
contains neither procedural token. -/
theorem proceduralBonus_eq_zero (c : CaseRecord) (q : String)
    (h1 : strIncludes (caseTextLower c) "21 day" = false)
    (h2 : strIncludes (caseTextLower c) "notice" = false) :
    proceduralBonus c q = 0 := by
  unfold proceduralBonus
  rw [h1, h2, Bool.and_false, Bool.and_false]
  simp

/-! ### Claim C8 -/

/-- C8: for every candidate record, query and jurisdiction,
`calculateRelevanceScore` returns a value greater than or equal to zero: the
score starts at 0 and every rule only adds a non-negative amount. -/
theorem c8_score_nonneg (c : CaseRecord) (q : String) (j : Option String) :
    0 ≤ calculateRelevanceScore c q j := by
  unfold calculateRelevanceScore
  have h1 := jurisdictionBonus_nonneg c j
  have h2 := recencyBonus_nonneg c
  have h3 := sourceBonus_nonneg c
  have h4 := courtBonus_nonneg c
  have h5 := keyTermBonus_nonneg c q
  have h6 := statuteBonus_nonneg c q
  have h7 := proceduralBonus_nonneg c q
  omega

/-! ### Claim C1 -/

/-- C1 counterexample: the jurisdiction rule does not fire on case-insensitive
substring containment. With requested jurisdiction `"ca"` (non-empty), a
candidate whose `jurisdiction` field is `"California"` — which contains
`"ca"` as a case-insensitive substring — scores exactly the same as an
otherwise identical candidate whose `jurisdiction` field `"zz"` does not,
refuting the claimed strict increase. -/
theorem c1_counterexample :
    strIncludes (strLower "California") (strLower "ca") = true ∧
    strIncludes (strLower "zz") (strLower "ca") = false ∧
    ("ca" : String) ≠ "" ∧
    calculateRelevanceScore
        { name := some "n", jurisdiction := some "California" } "q" (some "ca")
      = calculateRelevanceScore
        { name := some "n", jurisdiction := some "zz" } "q" (some "ca") :=
  ⟨by decide, by decide, by decide, by decide⟩

/-- C1 amended: the jurisdiction rule fires on exact, case-sensitive string
equality (`case_.jurisdiction === jurisdiction`, line 118), not on
case-insensitive substring containment. When the requested jurisdiction is
non-empty, a candidate whose `jurisdiction` field equals it exactly scores
strictly higher than an otherwise identical candidate whose `jurisdiction`
field is anything else. -/
theorem c1_amended (c : CaseRecord) (q j : String) (j2 : Option String)
    (hj : j ≠ "") (hne : j2 ≠ some j) :
    calculateRelevanceScore { c with jurisdiction := some j } q (some j)
      > calculateRelevanceScore { c with jurisdiction := j2 } q (some j) := by
  obtain ⟨i, n, co, d, s, u, j0, so⟩ := c
  unfold calculateRelevanceScore
  dsimp only
  have h1 : jurisdictionBonus ⟨i, n, co, d, s, u, some j, so⟩ (some j)
      = jurisdictionMatchBonus := by
    simp [jurisdictionBonus, hj]
  have h2 : jurisdictionBonus ⟨i, n, co, d, s, u, j2, so⟩ (some j) = 0 := by
    simp [jurisdictionBonus, hne]
  rw [h1, h2]
  have e1 : recencyBonus ⟨i, n, co, d, s, u, some j, so⟩
      = recencyBonus ⟨i, n, co, d, s, u, j2, so⟩ := rfl
  have e2 : sourceBonus ⟨i, n, co, d, s, u, some j, so⟩
      = sourceBonus ⟨i, n, co, d, s, u, j2, so⟩ := rfl
  have e3 : courtBonus ⟨i, n, co, d, s, u, some j, so⟩
      = courtBonus ⟨i, n, co, d, s, u, j2, so⟩ := rfl
  have e4 : keyTermBonus ⟨i, n, co, d, s, u, some j, so⟩ q
      = keyTermBonus ⟨i, n, co, d, s, u, j2, so⟩ q := rfl
  have e5 : statuteBonus ⟨i, n, co, d, s, u, some j, so⟩ q
      = statuteBonus ⟨i, n, co, d, s, u, j2, so⟩ q := rfl
  have e6 : proceduralBonus ⟨i, n, co, d, s, u, some j, so⟩ q
      = proceduralBonus ⟨i, n, co, d, s, u, j2, so⟩ q := rfl
  rw [e1, e2, e3, e4, e5, e6]
  have h15 : jurisdictionMatchBonus = 15 := rfl
  omega

/-- C1 amended, witness: a concrete instance of the amended jurisdiction
monotonicity at requested jurisdiction `"ca"`. -/
theorem c1_amended_witness :
    ("ca" : String) ≠ "" ∧ (some "zz" : Option String) ≠ some "ca" ∧
    calculateRelevanceScore
        { { name := some "n" : CaseRecord } with jurisdiction := some "ca" } "q" (some "ca")
      > calculateRelevanceScore
        { { name := some "n" : CaseRecord } with jurisdiction := some "zz" } "q" (some "ca") :=
  ⟨by decide, by decide,
    c1_amended { name := some "n" } "q" "ca" (some "zz") (by decide) (by decide)⟩

/-! ### Claim C2 -/

/-- C2 counterexample: there is no deny-list penalty in
`calculateRelevanceScore`. A candidate whose name is `"antitrust merger"` —
containing two of the deny-list terms named by the claim — scores exactly the
same as an otherwise identical candidate whose name is empty and so contains
no deny-listed term, refuting the claimed strict decrease. -/
theorem c2_counterexample :
    strIncludes (strLower "antitrust merger") "antitrust" = true ∧
    strIncludes (strLower "antitrust merger") "merger" = true ∧
    calculateRelevanceScore { name := some "antitrust merger" } "q" none
      = calculateRelevanceScore { name := some "" } "q" none :=
  ⟨by decide, by decide, by decide⟩

/-- C2 amended: the scorer has no deny-list rule and never subtracts anything.
For every query, requested jurisdiction and values of the remaining fields, a
candidate whose name is `"antitrust merger"` (containing deny-list terms but
no allow-listed key term) scores exactly equal to the otherwise identical
candidate with an empty name, both with empty snippets. -/
theorem c2_amended (q : String) (j : Option String) (i co d u j0 so : Option String) :
    calculateRelevanceScore ⟨i, some "antitrust merger", co, d, some "", u, j0, so⟩ q j
      = calculateRelevanceScore ⟨i, some "", co, d, some "", u, j0, so⟩ q j := by
  have hA : ∀ t ∈ keyTerms, strIncludes (strLower "antitrust merger") t = false := by decide
  have hB : ∀ t ∈ keyTerms, strIncludes (strLower "") t = false := by decide
  have t1 : strIncludes (strLower "antitrust merger" ++ " " ++ strLower "") "1950.5"
      = false := by decide
  have t2 : strIncludes (strLower "antitrust merger" ++ " " ++ strLower "") "civil code"
      = false := by decide
  have t3 : strIncludes (strLower "antitrust merger" ++ " " ++ strLower "") "21 day"
      = false := by decide
  have t4 : strIncludes (strLower "antitrust merger" ++ " " ++ strLower "") "notice"
      = false := by decide
  have u1 : strIncludes (strLower "" ++ " " ++ strLower "") "1950.5" = false := by decide
  have u2 : strIncludes (strLower "" ++ " " ++ strLower "") "civil code" = false := by decide
  have u3 : strIncludes (strLower "" ++ " " ++ strLower "") "21 day" = false := by decide
  have u4 : strIncludes (strLower "" ++ " " ++ strLower "") "notice" = false := by decide
  unfold calculateRelevanceScore
  rw [keyTermBonus_eq_zero ⟨i, some "antitrust merger", co, d, some "", u, j0, so⟩ q hA hB,
      keyTermBonus_eq_zero ⟨i, some "", co, d, some "", u, j0, so⟩ q hB hB,
      statuteBonus_eq_zero ⟨i, some "antitrust merger", co, d, some "", u, j0, so⟩ q t1 t2,
      statuteBonus_eq_zero ⟨i, some "", co, d, some "", u, j0, so⟩ q u1 u2,
      proceduralBonus_eq_zero ⟨i, some "antitrust merger", co, d, some "", u, j0, so⟩ q t3 t4,
      proceduralBonus_eq_zero ⟨i, some "", co, d, some "", u, j0, so⟩ q u3 u4]
  rfl

/-! ### Claim C3 -/

/-- C3 counterexample: the claimed strict ordering of bonus categories fails
on two counts: the jurisdiction-match bonus (15) is not strictly greater than
the supreme-court bonus (15), and the district-court and Justia bonuses (5)
are not greater than the first recency bonus (10). -/
theorem c3_counterexample :
    ¬ jurisdictionMatchBonus > supremeCourtBonus ∧
    ¬ districtCourtBonus > recency2010Bonus ∧
    ¬ justiaBonus > recency2010Bonus := by decide

/-- C3 amended: the orderings that do hold among the bonus constants used by
`calculateRelevanceScore`: the statutory-citation bonuses (50 for `1950.5`,
30 for `civil code`) exceed the key-term name bonus (20), which exceeds the
jurisdiction bonus (15); the jurisdiction bonus equals the supreme-court
bonus and strictly exceeds every single source-credibility bonus and every
other court bonus; but source/court bonuses do not all exceed the recency
bonus: the CourtListener bonus equals the first recency bonus (10), and the
Google Scholar, Cornell, Justia, court-of-appeal and district-court bonuses
do not all exceed it. -/
theorem c3_amended :
    statute1950Bonus > keyTermNameBonus ∧
    civilCodeBonus > keyTermNameBonus ∧
    statute1950Bonus > civilCodeBonus ∧
    keyTermNameBonus > jurisdictionMatchBonus ∧
    jurisdictionMatchBonus = supremeCourtBonus ∧
    jurisdictionMatchBonus > courtOfAppealBonus ∧
    jurisdictionMatchBonus > districtCourtBonus ∧
    jurisdictionMatchBonus > courtListenerBonus ∧
    jurisdictionMatchBonus > googleScholarBonus ∧
    jurisdictionMatchBonus > cornellBonus ∧
    jurisdictionMatchBonus > justiaBonus ∧
    courtListenerBonus = recency2010Bonus ∧
    districtCourtBonus < recency2010Bonus ∧
    justiaBonus < recency2010Bonus ∧
    cornellBonus < recency2010Bonus ∧
    googleScholarBonus < recency2010Bonus := by decide

/-! ### Claim C7 -/

/-- C7: scoring is total (it is a Lean function) and treats missing fields
defensively: a missing `name`, `snippet` or `court` scores exactly as the
empty string does, a date whose leading dash-separated segment has no parse
(the JavaScript `parseInt` result is `NaN`) contributes zero recency bonus,
and a missing date also contributes zero. -/
theorem c7_defensive_defaults (c : CaseRecord) (q : String) (j : Option String)
    (d : String)
    (hd : parseIntJS (String.mk (d.data.takeWhile (fun ch => ch != '-'))) = none) :
    calculateRelevanceScore { c with name := none } q j
        = calculateRelevanceScore { c with name := some "" } q j ∧
    calculateRelevanceScore { c with snippet := none } q j
        = calculateRelevanceScore { c with snippet := some "" } q j ∧
    calculateRelevanceScore { c with court := none } q j
        = calculateRelevanceScore { c with court := some "" } q j ∧
    recencyBonus { c with date := some d } = 0 ∧
    recencyBonus { c with date := none } = 0 := by
  refine ⟨rfl, rfl, rfl, ?_, rfl⟩
  obtain ⟨i, n, co, dt, s, u, j0, so⟩ := c
  unfold recencyBonus
  simp only
  rcases eq_or_ne d "" with h | h
  · simp [h]
  · rw [if_neg h, hd]

/-- C7 witness: the defensive defaults at a concrete record and the concrete
unparseable date `"May 2023"` (its leading dash-separated segment has no
leading digits). -/
theorem c7_defensive_defaults_witness :
    parseIntJS (String.mk (("May 2023" : String).data.takeWhile (fun ch => ch != '-'))) = none ∧
    recencyBonus { ({ id := some "1" } : CaseRecord) with date := some "May 2023" } = 0 :=
  ⟨by decide,
    (c7_defensive_defaults { id := some "1" } "q" none "May 2023" (by decide)).2.2.2.1⟩

/-! ### Helper lemmas about the dedupe filter -/

/-- The dedupe filter keeps a subsequence of its input. -/
theorem dedupeAux_sublist : ∀ (l seen : List CaseRecord), List.Sublist (dedupeAux seen l) l := by
  intro l
  induction l with
  | nil => intro seen; exact List.nil_sublist []
  | cons x xs ih =>
    intro seen
    rw [dedupeAux]
    split
    · exact (ih (x :: seen)).cons x
    · exact (ih (x :: seen)).cons₂ x

theorem dedupeCases_sublist (l : List CaseRecord) : List.Sublist (dedupeCases l) l :=
  dedupeAux_sublist l []

/-- Every record the dedupe filter keeps matches no record of the `seen`
accumulator on name or id. -/
theorem not_keyMatch_of_mem_dedupeAux :
    ∀ (l seen : List CaseRecord) (x : CaseRecord), x ∈ dedupeAux seen l →
      ∀ c ∈ seen, keyMatch c x = false := by
  intro l
  induction l with
  | nil => intro seen x hx; simp [dedupeAux] at hx
  | cons y ys ih =>
    intro seen x hx c hc
    rw [dedupeAux] at hx
    split at hx
    · exact ih (y :: seen) x hx c (List.mem_cons_of_mem _ hc)
    · rcases List.mem_cons.mp hx with rfl | hx'
      · rename_i h
        rw [List.any_eq_true] at h
        push_neg at h
        exact Bool.not_eq_true _ ▸ h c hc
      · exact ih (y :: seen) x hx' c (List.mem_cons_of_mem _ hc)

/-- Records surviving the dedupe filter are pairwise non-matching on both
name and id. -/
theorem dedupeAux_pairwise : ∀ (l seen : List CaseRecord),
    (dedupeAux seen l).Pairwise (fun a b => keyMatch a b = false) := by
  intro l
  induction l with
  | nil => intro seen; exact List.Pairwise.nil
  | cons y ys ih =>
    intro seen
    rw [dedupeAux]
    split
    · exact ih (y :: seen)
    · refine List.Pairwise.cons ?_ (ih (y :: seen))
      intro b hb
      exact not_keyMatch_of_mem_dedupeAux ys (y :: seen) b hb y (List.mem_cons_self y seen)

theorem dedupeCases_pairwise (l : List CaseRecord) :
    (dedupeCases l).Pairwise (fun a b => keyMatch a b = false) :=
  dedupeAux_pairwise l []

/-- A non-match on the dedup key means in particular that the names differ. -/
theorem name_ne_of_not_keyMatch {a b : CaseRecord} (h : keyMatch a b = false) :
    a.name ≠ b.name := by
  unfold keyMatch at h
  rcases Bool.or_eq_false_iff.mp h with ⟨h1, _⟩
  exact fun he => by simp [he] at h1

/-- A non-match on the dedup key means in particular that the ids differ. -/
theorem id_ne_of_not_keyMatch {a b : CaseRecord} (h : keyMatch a b = false) :
    a.id ≠ b.id := by
  unfold keyMatch at h
  rcases Bool.or_eq_false_iff.mp h with ⟨_, h2⟩
  exact fun he => by simp [he] at h2

/-- The names of the deduplicated records are pairwise distinct. -/
theorem dedupeCases_names_nodup (l : List CaseRecord) :
    ((dedupeCases l).map (fun c => c.name)).Nodup :=
  List.pairwise_map.mpr ((dedupeCases_pairwise l).imp name_ne_of_not_keyMatch)

/-- The ids of the deduplicated records are pairwise distinct. -/
theorem dedupeCases_ids_nodup (l : List CaseRecord) :
    ((dedupeCases l).map (fun c => c.id)).Nodup :=
  List.pairwise_map.mpr ((dedupeCases_pairwise l).imp id_ne_of_not_keyMatch)

/-- A record preceded (in the whole original list and in the accumulated
`seen` prefix) by no record matching its name or id survives the dedupe
filter. -/
theorem mem_dedupeAux_append :
    ∀ (l1 seen : List CaseRecord) (a : CaseRecord) (l2 : List CaseRecord),
      (∀ c ∈ seen, keyMatch c a = false) → (∀ c ∈ l1, keyMatch c a = false) →
      a ∈ dedupeAux seen (l1 ++ a :: l2) := by
  intro l1
  induction l1 with
  | nil =>
    intro seen a l2 hseen _
    rw [List.nil_append, dedupeAux]
    have hany : seen.any (fun c => keyMatch c a) = false := by
      rw [List.any_eq_false]
      intro c hc
      simp [hseen c hc]
    rw [if_neg (by simp [hany])]
    exact List.mem_cons_self a _
  | cons x l1 ih =>
    intro seen a l2 hseen hl1
    rw [List.cons_append, dedupeAux]
    have hseen' : ∀ c ∈ x :: seen, keyMatch c a = false := by
      intro c hc
      rcases List.mem_cons.mp hc with rfl | hc'
      · exact hl1 c (List.mem_cons_self c l1)
      · exact hseen c hc'
    have hl1' : ∀ c ∈ l1, keyMatch c a = false :=
      fun c hc => hl1 c (List.mem_cons_of_mem x hc)
    split
    · exact ih (x :: seen) a l2 hseen' hl1'
    · exact List.mem_cons_of_mem x (ih (x :: seen) a l2 hseen' hl1')

/-! ### Helper lemmas about the stable sort -/

/-- Ordered insertion is stable: restricted to the records of any one score
value, inserting is the same as prepending, because every record skipped on
the way to the insertion point has a strictly larger score. -/
theorem filter_orderedInsert_score (k : Int) (x : ScoredRecord) :
    ∀ l : List ScoredRecord,
      (List.orderedInsert scoreDesc x l).filter (fun r => r.relevanceScore == k)
        = ((x :: l).filter (fun r => r.relevanceScore == k)) := by
  intro l
  induction l with
  | nil => rfl
  | cons y ys ih =>
    rw [List.orderedInsert]
    by_cases h : scoreDesc x y
    · rw [if_pos h]
    · rw [if_neg h]
      have hxy : x.relevanceScore < y.relevanceScore := lt_of_not_le h
      by_cases hk : x.relevanceScore = k
      · have hy : y.relevanceScore ≠ k := by omega
        simp only [List.filter_cons, ih]
        simp [hk, hy]
      · simp only [List.filter_cons, ih]
        simp [hk]

/-- Insertion sort is stable: it permutes the list without reordering the
records of any one score value. -/
theorem filter_insertionSort_score (k : Int) (l : List ScoredRecord) :
    (List.insertionSort scoreDesc l).filter (fun r => r.relevanceScore == k)
      = l.filter (fun r => r.relevanceScore == k) := by
  induction l with
  | nil => rfl
  | cons x xs ih =>
    rw [List.insertionSort, filter_orderedInsert_score]
    simp only [List.filter_cons, ih]

/-! ### Claim C4 -/

/-- C4: the ranked output is sorted descending by `relevanceScore`, and it is
stable: for every score value, the output records carrying that score appear
in the same relative order (as a subsequence) as in the scored original
candidates list; in particular equal-scoring records keep their original
relative order. -/
theorem c4_sorted_stable (l : List CaseRecord) (q : String) (j : Option String) :
    (rankedCases l q j).Pairwise (fun a b => b.relevanceScore ≤ a.relevanceScore) ∧
    ∀ k : Int,
      List.Sublist ((rankedCases l q j).filter (fun r => r.relevanceScore == k))
        ((l.map (addScore q j)).filter (fun r => r.relevanceScore == k)) := by
  constructor
  · have hs := List.sorted_insertionSort scoreDesc ((dedupeCases l).map (addScore q j))
    exact List.Pairwise.sublist (List.take_sublist _ _) hs
  · intro k
    have h1 : List.Sublist
        ((rankedCases l q j).filter (fun r => r.relevanceScore == k))
        ((List.insertionSort scoreDesc ((dedupeCases l).map (addScore q j))).filter
          (fun r => r.relevanceScore == k)) :=
      (List.take_sublist _ _).filter _
    rw [filter_insertionSort_score] at h1
    have h2 : List.Sublist ((dedupeCases l).map (addScore q j)) (l.map (addScore q j)) :=
      (dedupeCases_sublist l).map _
    exact h1.trans (h2.filter _)

/-! ### Claim C5 -/

/-- C5: the ranked output never exceeds the fixed cap of 10 records, never
exceeds the number of distinct names among the input candidates, and an empty
candidate list yields an empty output. -/
theorem c5_length_cap (l : List CaseRecord) (q : String) (j : Option String) :
    (rankedCases l q j).length ≤ rankedCap ∧
    (rankedCases l q j).length ≤ ((l.map (fun c => c.name)).dedup).length ∧
    rankedCases [] q j = [] := by
  refine ⟨List.length_take_le _ _, ?_, rfl⟩
  have h1 : (rankedCases l q j).length
      ≤ (List.insertionSort scoreDesc ((dedupeCases l).map (addScore q j))).length :=
    (List.take_sublist _ _).length_le
  rw [List.length_insertionSort, List.length_map] at h1
  have hnd := dedupeCases_names_nodup l
  have hsub : ((dedupeCases l).map (fun c => c.name)) ⊆ (l.map (fun c => c.name)) :=
    ((dedupeCases_sublist l).map _).subset
  have hsub2 : ((dedupeCases l).map (fun c => c.name))
      ⊆ ((l.map (fun c => c.name)).dedup) :=
    fun x hx => (List.mem_dedup).mpr (hsub hx)
  have h2 := (hnd.subperm hsub2).length_le
  rw [List.length_map] at h2
  omega

/-! ### Claim C10 -/

/-- C10: ranking only copies: every output record carries some input record's
fields unchanged, its `relevanceScore` is exactly the computed score of those
fields, and the record is precisely the input record spread into a new object
with the score added. -/
theorem c10_fields_preserved (l : List CaseRecord) (q : String) (j : Option String) :
    ∀ r ∈ rankedCases l q j,
      r.toCaseRecord ∈ l ∧
      r.relevanceScore = calculateRelevanceScore r.toCaseRecord q j ∧
      r = addScore q j r.toCaseRecord := by
  intro r hr
  have h1 : r ∈ List.insertionSort scoreDesc ((dedupeCases l).map (addScore q j)) :=
    (List.take_sublist _ _).subset hr
  rw [List.mem_insertionSort] at h1
  rcases List.mem_map.mp h1 with ⟨c, hc, rfl⟩
  exact ⟨(dedupeCases_sublist l).subset hc, rfl, rfl⟩

/-- C10 witness: the field-preservation property at a concrete one-record
candidate list. -/
theorem c10_fields_preserved_witness :
    (addScore "q" none { id := some "1", name := some "x" }
        ∈ rankedCases [{ id := some "1", name := some "x" }] "q" none) ∧
    ((addScore "q" none { id := some "1", name := some "x" }).toCaseRecord
        ∈ ([{ id := some "1", name := some "x" }] : List CaseRecord) ∧
      (addScore "q" none { id := some "1", name := some "x" }).relevanceScore
        = calculateRelevanceScore
            (addScore "q" none { id := some "1", name := some "x" }).toCaseRecord "q" none ∧
      addScore "q" none { id := some "1", name := some "x" }
        = addScore "q" none
            (addScore "q" none { id := some "1", name := some "x" }).toCaseRecord) :=
  ⟨by decide,
    c10_fields_preserved [{ id := some "1", name := some "x" }] "q" none
      (addScore "q" none { id := some "1", name := some "x" }) (by decide)⟩

/-! ### Claim C6 -/

/-- C6 counterexample: with input `[X, A, B]` where `A` and `B` share the name
`"dup"` but have different ids, it can happen that NEITHER of them appears in
the ranked output: here `A` is dropped because it shares its id with the
earlier record `X`, and `B` is dropped because it shares its name with the
earlier (already dropped) record `A` — the dedupe filter compares against all
earlier records of the original list, kept or not. This refutes the claim
that exactly one of the two name-duplicates always appears. -/
theorem c6_counterexample :
    ({ id := some "1", name := some "dup" } : CaseRecord).name
      = ({ id := some "2", name := some "dup" } : CaseRecord).name ∧
    ({ id := some "1", name := some "dup" } : CaseRecord).id
      ≠ ({ id := some "2", name := some "dup" } : CaseRecord).id ∧
    rankedCases
        [{ id := some "1", name := some "x" },
         { id := some "1", name := some "dup" },
         { id := some "2", name := some "dup" }] "q" none
      = [addScore "q" none { id := some "1", name := some "x" }] := by decide

/-- C6 amended: the later of two name-duplicates never appears in the ranked
output, and the first occurrence does appear provided no still-earlier record
shares its name or id with it (the original claim fails exactly in that
shadowed case) and the input is within the output cap (so truncation cannot
remove it). -/
theorem c6_amended (l1 l2 l3 : List CaseRecord) (a b : CaseRecord)
    (q : String) (j : Option String)
    (hname : a.name = b.name) (hid : a.id ≠ b.id)
    (hfirst : ∀ c ∈ l1, keyMatch c a = false)
    (hlen : (l1 ++ a :: (l2 ++ b :: l3)).length ≤ rankedCap) :
    addScore q j a ∈ rankedCases (l1 ++ a :: (l2 ++ b :: l3)) q j ∧
    ∀ r ∈ rankedCases (l1 ++ a :: (l2 ++ b :: l3)) q j, r.toCaseRecord ≠ b := by
  have ha : a ∈ dedupeCases (l1 ++ a :: (l2 ++ b :: l3)) :=
    mem_dedupeAux_append l1 [] a (l2 ++ b :: l3) (by intro c hc; cases hc) hfirst
  have hlen2 : (List.insertionSort scoreDesc
      ((dedupeCases (l1 ++ a :: (l2 ++ b :: l3))).map (addScore q j))).length
      ≤ rankedCap := by
    rw [List.length_insertionSort, List.length_map]
    exact le_trans (dedupeCases_sublist _).length_le hlen
  have hout : rankedCases (l1 ++ a :: (l2 ++ b :: l3)) q j
      = List.insertionSort scoreDesc
          ((dedupeCases (l1 ++ a :: (l2 ++ b :: l3))).map (addScore q j)) :=
    List.take_of_length_le hlen2
  constructor
  · rw [hout, List.mem_insertionSort]
    exact List.mem_map_of_mem _ ha
  · intro r hr hrb
    rw [hout, List.mem_insertionSort] at hr
    rcases List.mem_map.mp hr with ⟨c, hc, rfl⟩
    have hcb : c = b := hrb
    have hb : b ∈ dedupeCases (l1 ++ a :: (l2 ++ b :: l3)) := hcb ▸ hc
    have hnd := dedupeCases_names_nodup (l1 ++ a :: (l2 ++ b :: l3))
    have hab : a = b := List.inj_on_of_nodup_map hnd ha hb hname
    exact hid (congrArg CaseRecord.id hab)

/-- C6 amended, witness: with no earlier shadowing record, the first of the
two name-duplicates appears in the ranked output and the later never does. -/
theorem c6_amended_witness :
    ({ id := some "1", name := some "dup" } : CaseRecord).name
      = ({ id := some "2", name := some "dup" } : CaseRecord).name ∧
    ({ id := some "1", name := some "dup" } : CaseRecord).id
      ≠ ({ id := some "2", name := some "dup" } : CaseRecord).id ∧
    (([] : List CaseRecord) ++ ({ id := some "1", name := some "dup" } : CaseRecord)
        :: (([] : List CaseRecord) ++ ({ id := some "2", name := some "dup" } : CaseRecord)
          :: ([] : List CaseRecord))).length ≤ rankedCap ∧
    (addScore "q" none { id := some "1", name := some "dup" }
        ∈ rankedCases (([] : List CaseRecord)
            ++ ({ id := some "1", name := some "dup" } : CaseRecord)
            :: (([] : List CaseRecord)
              ++ ({ id := some "2", name := some "dup" } : CaseRecord)
              :: ([] : List CaseRecord))) "q" none ∧
      ∀ r ∈ rankedCases (([] : List CaseRecord)
            ++ ({ id := some "1", name := some "dup" } : CaseRecord)
            :: (([] : List CaseRecord)
              ++ ({ id := some "2", name := some "dup" } : CaseRecord)
              :: ([] : List CaseRecord))) "q" none,
        r.toCaseRecord ≠ { id := some "2", name := some "dup" }) :=
  ⟨by decide, by decide, by decide,
    c6_amended [] [] [] { id := some "1", name := some "dup" }
      { id := some "2", name := some "dup" } "q" none
      (by decide) (by decide) (by intro c hc; cases hc) (by decide)⟩

/-! ### Claim C9 -/

/-- C9 counterexample: with input `[X, A, B]` where `A` and `B` share id
`"3"` but have different names, the first of the two does not survive
deduplication: `A` is dropped because it shares its name with the earlier
record `X`, and `B` is dropped because it shares its id with `A`; only `X`
survives, refuting the claim that the first of the two always survives. -/
theorem c9_counterexample :
    ({ id := some "3", name := some "n1" } : CaseRecord).id
      = ({ id := some "3", name := some "n2" } : CaseRecord).id ∧
    ({ id := some "3", name := some "n1" } : CaseRecord).name
      ≠ ({ id := some "3", name := some "n2" } : CaseRecord).name ∧
    dedupeCases
        [{ id := some "7", name := some "n1" },
         { id := some "3", name := some "n1" },
         { id := some "3", name := some "n2" }]
      = [{ id := some "7", name := some "n1" }] := by decide

/-- C9 amended: the dedupe filter drops a later record sharing its name or id
with ANY earlier record of the original list, kept or not; hence of two
records with the same id and distinct names, the later never survives, and
the first survives exactly when no still-earlier record shares its name or
id. -/
theorem c9_amended (l1 l2 l3 : List CaseRecord) (a b : CaseRecord)
    (hid : a.id = b.id) (hname : a.name ≠ b.name)
    (hfirst : ∀ c ∈ l1, keyMatch c a = false) :
    a ∈ dedupeCases (l1 ++ a :: (l2 ++ b :: l3)) ∧
    b ∉ dedupeCases (l1 ++ a :: (l2 ++ b :: l3)) := by
  have ha : a ∈ dedupeCases (l1 ++ a :: (l2 ++ b :: l3)) :=
    mem_dedupeAux_append l1 [] a (l2 ++ b :: l3) (by intro c hc; cases hc) hfirst
  refine ⟨ha, fun hb => ?_⟩
  have hnd := dedupeCases_ids_nodup (l1 ++ a :: (l2 ++ b :: l3))
  have hab : a = b := List.inj_on_of_nodup_map hnd ha hb hid
  exact hname (congrArg CaseRecord.name hab)

/-- C9 amended, witness: with no earlier shadowing record, the first of the
two id-duplicates survives deduplication and the later is dropped. -/
theorem c9_amended_witness :
    ({ id := some "5", name := some "m1" } : CaseRecord).id
      = ({ id := some "5", name := some "m2" } : CaseRecord).id ∧
    ({ id := some "5", name := some "m1" } : CaseRecord).name
      ≠ ({ id := some "5", name := some "m2" } : CaseRecord).name ∧
    (({ id := some "5", name := some "m1" } : CaseRecord)
        ∈ dedupeCases (([] : List CaseRecord)
            ++ ({ id := some "5", name := some "m1" } : CaseRecord)
            :: (([] : List CaseRecord)
              ++ ({ id := some "5", name := some "m2" } : CaseRecord)
              :: ([] : List CaseRecord))) ∧
      ({ id := some "5", name := some "m2" } : CaseRecord)
        ∉ dedupeCases (([] : List CaseRecord)
            ++ ({ id := some "5", name := some "m1" } : CaseRecord)
            :: (([] : List CaseRecord)
              ++ ({ id := some "5", name := some "m2" } : CaseRecord)
              :: ([] : List CaseRecord)))) :=
  ⟨by decide, by decide,
    c9_amended [] [] [] { id := some "5", name := some "m1" }
      { id := some "5", name := some "m2" }
      (by decide) (by decide) (by intro c hc; cases hc)⟩

end LegalSearch
